import Mathlib

/-!
# Verification of `django_pymodsecurity/middleware.py`

A shallow embedding of `PyModSecurityMiddleware` (the phased inspection
pipeline, the intervention translator, and the rule-loading bookkeeping)
together with proofs of the specification's claims about it.

The rule-matching engine (libmodsecurity) is opaque: it is modelled as an
oracle giving, for each phase of a request's transaction, the verdict that
`transaction.intervention(...)` yields at the check following that phase,
plus functions giving the rule counts its load operations report.
-/

namespace PyModSec

/-- The six inspection phases, in pipeline order
(`middleware.py` lines 107-164). -/
inductive Phase where
  | connection
  | uri
  | requestHeaders
  | requestBody
  | responseHeaders
  | responseBody
deriving DecidableEq, Repr, Fintype

/-- Position of a phase in the pipeline order. -/
def Phase.idx : Phase → Nat
  | .connection => 0
  | .uri => 1
  | .requestHeaders => 2
  | .requestBody => 3
  | .responseHeaders => 4
  | .responseBody => 5

/-- A phase belongs to the request sub-pipeline (before the wrapped handler). -/
def Phase.isRequestSide (p : Phase) : Bool := p.idx ≤ 3

/-- `ModSecurity.ModSecurityIntervention`: the verdict object filled in by
`transaction.intervention(...)` (`middleware.py` lines 172-188 read the
fields `log`, `disruptive`, `url`, `status`). -/
structure ModSecurityIntervention where
  status : Int
  url : Option String
  log : Option String
  disruptive : Bool
deriving DecidableEq, Repr

/-- The wrapped handler's response object as the middleware consumes it:
`original_response.items()` (header fields), `original_response.status_code`,
and `original_response.getvalue()` (the raw body). -/
structure HandlerResponse where
  headers : List (String × String)
  status_code : Int
  body : String
deriving DecidableEq, Repr

/-- The response the middleware's `__call__` finally returns: a
`HttpResponseRedirect(url)`, a `HttpResponse(status=...)` (empty body), or
the wrapped handler's original response object, passed through. -/
inductive FinalResponse where
  | redirect (url : String)
  | fixedStatus (code : Int)
  | original (r : HandlerResponse)
deriving DecidableEq, Repr

/-- A Django `HttpRequest` as the middleware consumes it. `meta` is the
full WSGI `request.META` mapping in insertion order; the named fields are
the specific entries the middleware reads (`REMOTE_ADDR`, `SERVER_NAME`,
`SERVER_PORT`), plus `REMOTE_PORT` and `HTTP_X_FORWARDED_PORT`, which exist
in the environ and matter for `get_port` semantics. -/
structure HttpRequest where
  remoteAddr : String
  remotePort : Int
  serverName : String
  serverPort : Int
  xForwardedPort : Option Int
  meta : List (String × String)
  path : String
  method : String
  body : String

/-- Django's `HttpRequest.get_port()`: returns `META['HTTP_X_FORWARDED_PORT']`
when `settings.USE_X_FORWARDED_PORT` is enabled and that key is present,
otherwise `META['SERVER_PORT']`. It never consults `REMOTE_PORT`. -/
def get_port (useXForwardedPort : Bool) (r : HttpRequest) : Int :=
  match useXForwardedPort, r.xForwardedPort with
  | true, some p => p
  | true, none => r.serverPort
  | false, _ => r.serverPort

/-- `PyModSecurityMiddleware._iter_headers` (`middleware.py` lines 140-143):
yield each `META` item whose key starts with `HTTP_`, with that prefix
stripped. -/
def iter_headers (r : HttpRequest) : List (String × String) :=
  (r.meta.filter (fun kv => kv.1.startsWith "HTTP_")).map
    (fun kv => (kv.1.drop 5, kv.2))

/-- One observable call on the engine transaction (or the invocation of the
wrapped handler), in the order the middleware performs them. -/
inductive Event where
  | processConnection (addr : String) (port : Int) (serverName : String) (serverPort : Int)
  | processURI (path : String) (method : String) (version : String)
  | addRequestHeader (key : String) (value : String)
  | processRequestHeaders
  | appendRequestBody (body : String)
  | processRequestBody
  | handlerCall
  | addResponseHeader (field : String) (value : String)
  | processResponseHeaders (statusCode : Int) (version : String)
  | appendResponseBody (body : String)
  | processResponseBody
deriving DecidableEq, Repr

/-- The inspection phase an engine call belongs to (`handlerCall` is not an
engine call and belongs to none). -/
def eventPhase : Event → Option Phase
  | .processConnection .. => some .connection
  | .processURI .. => some .uri
  | .addRequestHeader .. => some .requestHeaders
  | .processRequestHeaders => some .requestHeaders
  | .appendRequestBody _ => some .requestBody
  | .processRequestBody => some .requestBody
  | .handlerCall => none
  | .addResponseHeader .. => some .responseHeaders
  | .processResponseHeaders .. => some .responseHeaders
  | .appendResponseBody _ => some .responseBody
  | .processResponseBody => some .responseBody

/-- The engine, abstracted: for each phase, the verdict that
`transaction.intervention(intervention)` yields at the check after that
phase (`none` when it returns false, i.e. no pending intervention). -/
def Oracle : Type := Phase → Option ModSecurityIntervention

/-- `PyModSecurityMiddleware.process_intervention` (`middleware.py` lines
166-189): translate a pending verdict into a replacement response (if any)
and the log lines emitted. The source's `if intervention is None` guard on
the freshly constructed verdict object is dead code and has no effect.
`HttpResponse(status=...)` carries no body, and `HttpResponseRedirect` is
chosen whenever `url` is non-null. -/
def process_intervention (verdict : Option ModSecurityIntervention) :
    Option FinalResponse × List String :=
  match verdict with
  | none => (none, [])
  | some intervention =>
    let logs : List String :=
      match intervention.log with
      | some l => [l]
      | none => []
    if !intervention.disruptive then
      (none, logs)
    else
      match intervention.url with
      | some u => (some (.redirect u), logs)
      | none => (some (.fixedStatus intervention.status), logs)

/-- Engine calls of the Connection phase (`middleware.py` lines 113-116):
`transaction.processConnection(META['REMOTE_ADDR'], int(request.get_port()),
META['SERVER_NAME'], int(META['SERVER_PORT']))`. -/
def connectionEvents (useXForwardedPort : Bool) (r : HttpRequest) : List Event :=
  [.processConnection r.remoteAddr (get_port useXForwardedPort r) r.serverName r.serverPort]

/-- Engine calls of the URI phase (`middleware.py` line 122):
`transaction.processURI(request.path, request.method, '1.1')`. -/
def uriEvents (r : HttpRequest) : List Event :=
  [.processURI r.path r.method "1.1"]

/-- Engine calls of the RequestHeaders phase (`middleware.py` lines 127-130):
each stripped `HTTP_` header, then `processRequestHeaders()`. -/
def requestHeaderEvents (r : HttpRequest) : List Event :=
  (iter_headers r).map (fun kv => .addRequestHeader kv.1 kv.2) ++ [.processRequestHeaders]

/-- Engine calls of the RequestBody phase (`middleware.py` lines 135-136):
the full raw body in one chunk, then `processRequestBody()`. -/
def requestBodyEvents (r : HttpRequest) : List Event :=
  [.appendRequestBody r.body, .processRequestBody]

/-- Engine calls of the ResponseHeaders phase (`middleware.py` lines
150-154): each response header, then
`processResponseHeaders(status_code, 'HTTP/1.1')`. -/
def responseHeaderEvents (resp : HandlerResponse) : List Event :=
  resp.headers.map (fun kv => .addResponseHeader kv.1 kv.2) ++
    [.processResponseHeaders resp.status_code "HTTP/1.1"]

/-- Engine calls of the ResponseBody phase (`middleware.py` lines 160-161):
the full response body in one chunk, then `processResponseBody()`. -/
def responseBodyEvents (resp : HandlerResponse) : List Event :=
  [.appendResponseBody resp.body, .processResponseBody]

/-- `PyModSecurityMiddleware.process_request` (`middleware.py` lines
107-138): run the four request-side phases in order, checking for an
intervention after each; stop and return the translated response as soon as
one is disruptive. Returns (replacement response if any, engine calls made,
log lines emitted). -/
def process_request (useXForwardedPort : Bool) (oracle : Oracle) (request : HttpRequest) :
    Option FinalResponse × List Event × List String :=
  match process_intervention (oracle .connection) with
  | (some resp, lg) => (some resp, connectionEvents useXForwardedPort request, lg)
  | (none, lg1) =>
  match process_intervention (oracle .uri) with
  | (some resp, lg) =>
      (some resp, connectionEvents useXForwardedPort request ++ uriEvents request, lg1 ++ lg)
  | (none, lg2) =>
  match process_intervention (oracle .requestHeaders) with
  | (some resp, lg) =>
      (some resp,
        connectionEvents useXForwardedPort request ++ uriEvents request ++
          requestHeaderEvents request,
        lg1 ++ lg2 ++ lg)
  | (none, lg3) =>
  match process_intervention (oracle .requestBody) with
  | (resp, lg4) =>
      (resp,
        connectionEvents useXForwardedPort request ++ uriEvents request ++
          requestHeaderEvents request ++ requestBodyEvents request,
        lg1 ++ lg2 ++ lg3 ++ lg4)

/-- `PyModSecurityMiddleware.process_response` (`middleware.py` lines
145-164): run the two response-side phases in order on the wrapped
handler's response, checking for an intervention after each; return the
translated response if one is disruptive, else the original response. -/
def process_response (oracle : Oracle) (original_response : HandlerResponse) :
    FinalResponse × List Event × List String :=
  match process_intervention (oracle .responseHeaders) with
  | (some resp, lg) => (resp, responseHeaderEvents original_response, lg)
  | (none, lg5) =>
  match process_intervention (oracle .responseBody) with
  | (some resp, lg) =>
      (resp, responseHeaderEvents original_response ++ responseBodyEvents original_response,
        lg5 ++ lg)
  | (none, lg6) =>
      (.original original_response,
        responseHeaderEvents original_response ++ responseBodyEvents original_response,
        lg5 ++ lg6)

/-- `PyModSecurityMiddleware.__call__` (`middleware.py` lines 94-105):
run the request sub-pipeline; on an intervention response, return it
without invoking the wrapped handler; otherwise invoke `get_response` once
and run the response sub-pipeline on its result. Returns (final response,
full event trace including the handler invocation, log lines). -/
def call (useXForwardedPort : Bool) (oracle : Oracle)
    (get_response : HttpRequest → HandlerResponse) (request : HttpRequest) :
    FinalResponse × List Event × List String :=
  match process_request useXForwardedPort oracle request with
  | (some response, tr, lg) => (response, tr, lg)
  | (none, tr, lg) =>
    let original := get_response request
    match process_response oracle original with
    | (response, tr2, lg2) => (response, tr ++ [.handlerCall] ++ tr2, lg ++ lg2)

/-- The complete event trace of an uninterrupted request: all six phases in
order with the wrapped handler invoked exactly once between the request and
response sub-pipelines. -/
def fullTrace (useXForwardedPort : Bool) (request : HttpRequest)
    (original : HandlerResponse) : List Event :=
  connectionEvents useXForwardedPort request ++ uriEvents request ++
    requestHeaderEvents request ++ requestBodyEvents request ++
    [.handlerCall] ++ responseHeaderEvents original ++ responseBodyEvents original

/-- The four request-side phases in order. -/
def requestPhases : List Phase := [.connection, .uri, .requestHeaders, .requestBody]

/-- The request sub-pipeline completes without a disruptive intervention. -/
def requestClean (oracle : Oracle) : Bool :=
  requestPhases.all (fun q => ((process_intervention (oracle q)).1).isNone)

/-! ## Rule loading (`middleware.py` lines 31-92)

The engine's load operations are abstracted as functions: `globExpand`
models `glob.glob(pattern, recursive=True)`, `loadFromUri` models
`self.rules.loadFromUri(rule_file)` (negative count = parse failure),
`getParserError` models `self.rules.getParserError()` as observed right
after the corresponding failed load. -/

/-- The warning message built at `middleware.py` line 66. -/
def ruleFileWarning (rule_file : String) (parserError : String) : String :=
  "[ModSecurity] Error trying to load rule file " ++ rule_file ++ ". " ++ parserError

/-- The warning message built at `middleware.py` lines 86-87. -/
def ruleTextWarning (parserError : String) : String :=
  "[ModSecurity] Error trying to load rules: " ++ parserError

/-- `PyModSecurityMiddleware.load_rule_files` (`middleware.py` lines
53-72): expand every pattern, try to load each file; a negative count logs
a warning (with the path and the parser error) and adds nothing; a
non-negative count is added to `_rules_count`. Returns
(the method's return value `rules_count - before_count`,
the new `_rules_count`, the warnings logged). -/
def load_rule_files (globExpand : String → List String) (loadFromUri : String → Int)
    (getParserError : String → String) (rules_count0 : Int) (rule_files : List String) :
    Int × Int × List String :=
  let before_count := rules_count0
  let final :=
    (rule_files.flatMap globExpand).foldl
      (fun (acc : Int × List String) rule_file =>
        let rules_count := loadFromUri rule_file
        if rules_count < 0 then
          (acc.1, acc.2 ++ [ruleFileWarning rule_file (getParserError rule_file)])
        else
          (acc.1 + rules_count, acc.2))
      (rules_count0, [])
  (final.1 - before_count, final.1, final.2)

/-- `PyModSecurityMiddleware.load_rules` (`middleware.py` lines 74-92):
return 0 at once when the text is `None` or empty; otherwise load it as one
unit; a negative count logs a warning and leaves `_rules_count` unchanged,
a non-negative count is added; either way the engine's count is returned.
Returns (the method's return value, the new `_rules_count`, the warnings
logged). -/
def load_rules (load : String → Int) (getParserError : String) (rules_count0 : Int)
    (rules : Option String) : Int × Int × List String :=
  match rules with
  | none => (0, rules_count0, [])
  | some text =>
    if text.length ≤ 0 then
      (0, rules_count0, [])
    else
      let rules_count := load text
      if rules_count < 0 then
        (rules_count, rules_count0, [ruleTextWarning getParserError])
      else
        (rules_count, rules_count0 + rules_count, [])

/-- An operation on the middleware object over its lifetime, as far as
`_rules_count` is concerned: the two load methods mutate it; request
processing (`__call__` and everything it calls) never touches it. -/
inductive MiddlewareOp where
  | loadRuleFiles (globExpand : String → List String) (loadFromUri : String → Int)
      (getParserError : String → String) (patterns : List String)
  | loadRules (load : String → Int) (getParserError : String) (rules : Option String)
  | handleRequest

/-- The effect of one operation on `_rules_count`. -/
def applyOp (c : Int) : MiddlewareOp → Int
  | .loadRuleFiles g u p pats => (load_rule_files g u p c pats).2.1
  | .loadRules l p r => (load_rules l p c r).2.1
  | .handleRequest => c

/-! ## Construction-time normalization (`middleware.py` lines 31-44) -/

/-- The shape of a Django settings value for `MODSECURITY_RULE_FILES` /
`MODSECURITY_RULES`: absent (`getattr` default `None`), a single string, or
a list of strings. -/
inductive RulesSetting where
  | null
  | str (s : String)
  | list (l : List String)
deriving DecidableEq, Repr

/-- `middleware.py` lines 31-33: a string setting becomes a one-element
list; `None` stays `None`. -/
def normalize_rule_files : RulesSetting → Option (List String)
  | .null => none
  | .str s => some [s]
  | .list l => some l

/-- `middleware.py` lines 35-37: a list setting is joined with newlines
into one text; `None` stays `None`. -/
def normalize_rule_lines : RulesSetting → Option String
  | .null => none
  | .str s => some s
  | .list l => some (String.intercalate "\n" l)

/-- One load performed by `__init__`. -/
inductive LoadEvent where
  | files (patterns : List String)
  | text (rules : String)
deriving DecidableEq, Repr

/-- Whether an init-time load is a file-pattern load. -/
def LoadEvent.isFiles : LoadEvent → Bool
  | .files _ => true
  | .text _ => false

/-- `middleware.py` lines 40-44: the loads `__init__` performs, in order —
`load_rule_files` on the normalized file setting (when not `None`), then
`load_rules` on the normalized inline setting (when not `None`). -/
def init_loads (rule_files rule_lines : RulesSetting) : List LoadEvent :=
  (match normalize_rule_files rule_files with
   | some ps => [LoadEvent.files ps]
   | none => []) ++
  (match normalize_rule_lines rule_lines with
   | some t => [LoadEvent.text t]
   | none => [])

/-! ## Helper lemmas -/

/-- Unrolling the per-file fold of `load_rule_files`: starting from
`(c, ws)`, the accumulated count gains exactly the non-negative counts and
the warning list gains exactly one warning per failing file, in file
order. -/
theorem load_files_foldl (loadFromUri : String → Int) (getParserError : String → String)
    (files : List String) (c : Int) (ws : List String) :
    files.foldl
      (fun (acc : Int × List String) rule_file =>
        let rules_count := loadFromUri rule_file
        if rules_count < 0 then
          (acc.1, acc.2 ++ [ruleFileWarning rule_file (getParserError rule_file)])
        else
          (acc.1 + rules_count, acc.2))
      (c, ws) =
    (c + (files.map (fun f => if loadFromUri f < 0 then 0 else loadFromUri f)).sum,
     ws ++ (files.filter (fun f => loadFromUri f < 0)).map
       (fun f => ruleFileWarning f (getParserError f))) := by
  induction files generalizing c ws with
  | nil => simp
  | cons f fs ih =>
    by_cases h : loadFromUri f < 0 <;>
      simp [h, ih, List.filter_cons, add_assoc]

theorem eventPhase_connectionEvents {u : Bool} {r : HttpRequest} {e : Event}
    (h : e ∈ connectionEvents u r) : eventPhase e = some Phase.connection := by
  simp only [connectionEvents, List.mem_singleton] at h
  subst h; rfl

theorem eventPhase_uriEvents {r : HttpRequest} {e : Event}
    (h : e ∈ uriEvents r) : eventPhase e = some Phase.uri := by
  simp only [uriEvents, List.mem_singleton] at h
  subst h; rfl

theorem eventPhase_requestHeaderEvents {r : HttpRequest} {e : Event}
    (h : e ∈ requestHeaderEvents r) : eventPhase e = some Phase.requestHeaders := by
  simp only [requestHeaderEvents, List.mem_append, List.mem_map,
    List.mem_singleton] at h
  rcases h with ⟨kv, _, rfl⟩ | rfl <;> rfl

theorem eventPhase_requestBodyEvents {r : HttpRequest} {e : Event}
    (h : e ∈ requestBodyEvents r) : eventPhase e = some Phase.requestBody := by
  simp only [requestBodyEvents, List.mem_cons, List.mem_singleton,
    List.not_mem_nil, or_false] at h
  rcases h with rfl | rfl <;> rfl

theorem eventPhase_responseHeaderEvents {resp : HandlerResponse} {e : Event}
    (h : e ∈ responseHeaderEvents resp) : eventPhase e = some Phase.responseHeaders := by
  simp only [responseHeaderEvents, List.mem_append, List.mem_map,
    List.mem_singleton] at h
  rcases h with ⟨kv, _, rfl⟩ | rfl <;> rfl

theorem eventPhase_responseBodyEvents {resp : HandlerResponse} {e : Event}
    (h : e ∈ responseBodyEvents resp) : eventPhase e = some Phase.responseBody := by
  simp only [responseBodyEvents, List.mem_cons, List.mem_singleton,
    List.not_mem_nil, or_false] at h
  rcases h with rfl | rfl <;> rfl

/-- `handlerCall` carries no phase, so it never occurs in a list of events
that all belong to one phase. -/
theorem handlerCall_not_mem_of_phase {l : List Event} (p : Phase)
    (h : ∀ e ∈ l, eventPhase e = some p) : Event.handlerCall ∉ l := by
  intro hmem
  have := h _ hmem
  simp [eventPhase] at this

theorem handlerCall_not_mem_connectionEvents {u : Bool} {r : HttpRequest} :
    Event.handlerCall ∉ connectionEvents u r :=
  handlerCall_not_mem_of_phase _ (fun _ he => eventPhase_connectionEvents he)

theorem handlerCall_not_mem_uriEvents {r : HttpRequest} :
    Event.handlerCall ∉ uriEvents r :=
  handlerCall_not_mem_of_phase _ (fun _ he => eventPhase_uriEvents he)

theorem handlerCall_not_mem_requestHeaderEvents {r : HttpRequest} :
    Event.handlerCall ∉ requestHeaderEvents r :=
  handlerCall_not_mem_of_phase _ (fun _ he => eventPhase_requestHeaderEvents he)

theorem handlerCall_not_mem_requestBodyEvents {r : HttpRequest} :
    Event.handlerCall ∉ requestBodyEvents r :=
  handlerCall_not_mem_of_phase _ (fun _ he => eventPhase_requestBodyEvents he)

theorem handlerCall_not_mem_responseHeaderEvents {resp : HandlerResponse} :
    Event.handlerCall ∉ responseHeaderEvents resp :=
  handlerCall_not_mem_of_phase _ (fun _ he => eventPhase_responseHeaderEvents he)

theorem handlerCall_not_mem_responseBodyEvents {resp : HandlerResponse} :
    Event.handlerCall ∉ responseBodyEvents resp :=
  handlerCall_not_mem_of_phase _ (fun _ he => eventPhase_responseBodyEvents he)

theorem count_handlerCall_connectionEvents {u : Bool} {r : HttpRequest} :
    (connectionEvents u r).count Event.handlerCall = 0 :=
  List.count_eq_zero.mpr handlerCall_not_mem_connectionEvents

theorem count_handlerCall_uriEvents {r : HttpRequest} :
    (uriEvents r).count Event.handlerCall = 0 :=
  List.count_eq_zero.mpr handlerCall_not_mem_uriEvents

theorem count_handlerCall_requestHeaderEvents {r : HttpRequest} :
    (requestHeaderEvents r).count Event.handlerCall = 0 :=
  List.count_eq_zero.mpr handlerCall_not_mem_requestHeaderEvents

theorem count_handlerCall_requestBodyEvents {r : HttpRequest} :
    (requestBodyEvents r).count Event.handlerCall = 0 :=
  List.count_eq_zero.mpr handlerCall_not_mem_requestBodyEvents

theorem count_handlerCall_responseHeaderEvents {resp : HandlerResponse} :
    (responseHeaderEvents resp).count Event.handlerCall = 0 :=
  List.count_eq_zero.mpr handlerCall_not_mem_responseHeaderEvents

theorem count_handlerCall_responseBodyEvents {resp : HandlerResponse} :
    (responseBodyEvents resp).count Event.handlerCall = 0 :=
  List.count_eq_zero.mpr handlerCall_not_mem_responseBodyEvents

/-- Transfer an index bound along an `eventPhase` equation. -/
theorem idx_le_of_eventPhase {e : Event} {q p' : Phase} {n : Nat}
    (h1 : eventPhase e = some p') (hq : eventPhase e = some q)
    (hle : p'.idx ≤ n) : q.idx ≤ n := by
  rw [h1] at hq
  injection hq with h
  cases h
  exact hle

/-! ## Claim theorems: rule loading -/

/-- C5: `load_rule_files` attempts a load for each expanded path; a failing
path (negative engine count) produces exactly one warning — built from the
path and the parser-error text — contributes nothing to the total, and
does not stop the remaining loads; the returned value is the sum of the
successful loads' counts only (the delta over this call, the new running
total being the old one plus that delta). -/
theorem load_rule_files_delta_and_warnings (globExpand : String → List String)
    (loadFromUri : String → Int) (getParserError : String → String)
    (rules_count0 : Int) (patterns : List String) :
    (load_rule_files globExpand loadFromUri getParserError rules_count0 patterns).1 =
      (((patterns.flatMap globExpand).map
        (fun f => if loadFromUri f < 0 then 0 else loadFromUri f)).sum)
    ∧ (load_rule_files globExpand loadFromUri getParserError rules_count0 patterns).2.1 =
      rules_count0 +
        (((patterns.flatMap globExpand).map
          (fun f => if loadFromUri f < 0 then 0 else loadFromUri f)).sum)
    ∧ (load_rule_files globExpand loadFromUri getParserError rules_count0 patterns).2.2 =
      ((patterns.flatMap globExpand).filter (fun f => loadFromUri f < 0)).map
        (fun f => ruleFileWarning f (getParserError f))
    ∧ (∀ f e, ruleFileWarning f e =
        "[ModSecurity] Error trying to load rule file " ++ f ++ ". " ++ e) := by
  refine ⟨?_, ?_, ?_, fun f e => rfl⟩ <;>
    simp [load_rule_files, load_files_foldl]

/-- C6: `load_rules` returns 0 and leaves the running total unchanged on a
`None` or empty text; otherwise it performs one load of the full text: on
success (non-negative count) it adds the count to the total and returns it,
on failure it logs one warning built from the parser-error text and leaves
the total unchanged. -/
theorem load_rules_cases (load : String → Int) (getParserError : String)
    (rules_count0 : Int) :
    (load_rules load getParserError rules_count0 none = (0, rules_count0, []))
    ∧ (∀ t : String, t.length = 0 →
        load_rules load getParserError rules_count0 (some t) = (0, rules_count0, []))
    ∧ (∀ t : String, 0 < t.length → 0 ≤ load t →
        load_rules load getParserError rules_count0 (some t) =
          (load t, rules_count0 + load t, []))
    ∧ (∀ t : String, 0 < t.length → load t < 0 →
        load_rules load getParserError rules_count0 (some t) =
          (load t, rules_count0, [ruleTextWarning getParserError]))
    ∧ (∀ e, ruleTextWarning e = "[ModSecurity] Error trying to load rules: " ++ e) := by
  refine ⟨rfl, ?_, ?_, ?_, fun e => rfl⟩
  · intro t ht
    simp [load_rules, ht]
  · intro t ht hload
    have h1 : ¬ t.length ≤ 0 := by omega
    have h2 : ¬ load t < 0 := by omega
    simp [load_rules, h1, h2]
  · intro t ht hload
    have h1 : ¬ t.length ≤ 0 := by omega
    simp [load_rules, h1, hload]

/-- Witness for C6 at concrete inputs: a successful load of a non-empty
text, and a failing one. -/
theorem load_rules_cases_witness :
    load_rules (fun _ => 3) "perr" 5 (some "SecRule") = (3, 8, [])
    ∧ load_rules (fun _ => -1) "perr" 5 (some "SecRule") =
        (-1, 5, [ruleTextWarning "perr"]) :=
  ⟨(load_rules_cases (fun _ => 3) "perr" 5).2.2.1 "SecRule" (by decide) (by decide),
   (load_rules_cases (fun _ => -1) "perr" 5).2.2.2.1 "SecRule" (by decide) (by decide)⟩

/-- C7 counterexample: for a non-empty text whose load the engine rejects
with a negative count, `load_rules` returns that negative count — not an
integer ≥ 0. -/
theorem load_rules_returns_negative_on_failure :
    (load_rules (fun _ => -1) "syntax error" 0 (some "SecRule bad")).1 = -1 ∧
      ¬ (0 : Int) ≤ (load_rules (fun _ => -1) "syntax error" 0 (some "SecRule bad")).1 := by
  decide

/-- C7 (amended): a failed load contributes nothing to the running total —
the total never decreases, and whenever the returned value is negative the
total is exactly unchanged; only the method's *return value* can be
negative, on a rejected load. -/
theorem load_rules_total_contribution_nonneg (load : String → Int)
    (getParserError : String) (rules_count0 : Int) (rules : Option String) :
    rules_count0 ≤ (load_rules load getParserError rules_count0 rules).2.1
    ∧ ((load_rules load getParserError rules_count0 rules).1 < 0 →
        (load_rules load getParserError rules_count0 rules).2.1 = rules_count0) := by
  rcases rules with _ | t
  · simp [load_rules]
  · by_cases ht : t.length ≤ 0
    · simp [load_rules, ht]
    · by_cases hl : load t < 0 <;> simp [load_rules, ht, hl] <;> omega

/-- Witness for the amended C7: a failing load leaves the total at its old
value. -/
theorem load_rules_total_contribution_nonneg_witness :
    (load_rules (fun _ => -2) "perr" 7 (some "SecRule bad")).2.1 = 7 :=
  (load_rules_total_contribution_nonneg (fun _ => -2) "perr" 7 (some "SecRule bad")).2
    (by decide)

/-- C8: the running rule total is monotonically non-decreasing over the
middleware object's lifetime: each operation (file load, text load,
request handling) leaves it unchanged or increases it, so any sequence of
operations does too; request handling never touches it, and a failed text
load leaves it exactly unchanged. -/
theorem rules_count_monotone :
    (∀ (c : Int) (op : MiddlewareOp), c ≤ applyOp c op)
    ∧ (∀ (c : Int) (ops : List MiddlewareOp), c ≤ ops.foldl applyOp c)
    ∧ (∀ c : Int, applyOp c .handleRequest = c)
    ∧ (∀ (c : Int) (load : String → Int) (perr : String) (t : String),
        load t < 0 → applyOp c (.loadRules load perr (some t)) = c) := by
  have hstep : ∀ (c : Int) (op : MiddlewareOp), c ≤ applyOp c op := by
    intro c op
    cases op with
    | loadRuleFiles g u p pats =>
      have hS : (0 : Int) ≤
          (((pats.flatMap g).map (fun f => if u f < 0 then 0 else u f)).sum) := by
        apply List.sum_nonneg
        intro x hx
        simp only [List.mem_map] at hx
        obtain ⟨f, _, rfl⟩ := hx
        by_cases hf : u f < 0 <;> simp [hf] <;> omega
      simp only [applyOp, load_rule_files, load_files_foldl]
      linarith
    | loadRules l p r =>
      rcases r with _ | t
      · simp [applyOp, load_rules]
      · by_cases ht : t.length ≤ 0
        · simp [applyOp, load_rules, ht]
        · by_cases hl : l t < 0 <;> simp [applyOp, load_rules, ht, hl] <;> omega
    | handleRequest => simp [applyOp]
  refine ⟨hstep, ?_, fun c => rfl, ?_⟩
  · intro c ops
    induction ops generalizing c with
    | nil => simp
    | cons op ops ih =>
      calc c ≤ applyOp c op := hstep c op
        _ ≤ ops.foldl applyOp (applyOp c op) := ih _
        _ = (op :: ops).foldl applyOp c := rfl
  · intro c load perr t hneg
    by_cases ht : t.length ≤ 0 <;> simp [applyOp, load_rules, ht, hneg]

/-- Witness for C8: a sequence of one failing file load, one successful
text load and one request leaves the total at its monotone value. -/
theorem rules_count_monotone_witness :
    (5 : Int) ≤ applyOp 5 (.loadRules (fun _ => -7) "perr" (some "SecRule"))
    ∧ applyOp 5 (.loadRules (fun _ => -7) "perr" (some "SecRule")) = 5
    ∧ applyOp 5 .handleRequest = 5 :=
  ⟨rules_count_monotone.1 5 _,
   rules_count_monotone.2.2.2 5 (fun _ => -7) "perr" "SecRule" (by decide),
   rules_count_monotone.2.2.1 5⟩

/-- C10: at construction, a rule-files setting given as a single string is
treated as the one-element pattern list, an inline-rules setting given as a
list is joined with newlines into one text loaded as a single unit, and
the loads `__init__` performs always put every file-pattern load before
every inline-text load. -/
theorem init_normalization_and_order :
    (∀ s : String, normalize_rule_files (.str s) = some [s])
    ∧ (∀ l : List String,
        normalize_rule_lines (.list l) = some (String.intercalate "\n" l))
    ∧ (∀ rule_files rule_lines : RulesSetting, ∃ fs ts : List LoadEvent,
        init_loads rule_files rule_lines = fs ++ ts
        ∧ (∀ e ∈ fs, e.isFiles = true)
        ∧ (∀ e ∈ ts, e.isFiles = false)) := by
  refine ⟨fun s => rfl, fun l => rfl, fun rf rl => ?_⟩
  refine ⟨_, _, rfl, ?_, ?_⟩
  · intro e he
    cases hf : normalize_rule_files rf <;> rw [hf] at he <;>
      simp_all [LoadEvent.isFiles]
  · intro e he
    cases hl : normalize_rule_lines rl <;> rw [hl] at he <;>
      simp_all [LoadEvent.isFiles]

/-! ## Claim theorems: the Connection phase's port arguments -/

/-- A request on which the client's remote port (54321) differs from the
server port (80), with a standard WSGI environ and no X-Forwarded-Port. -/
def portDemoRequest : HttpRequest :=
  { remoteAddr := "198.51.100.7"
    remotePort := 54321
    serverName := "example.org"
    serverPort := 80
    xForwardedPort := none
    meta := [("REMOTE_ADDR", "198.51.100.7"), ("REMOTE_PORT", "54321"),
             ("SERVER_NAME", "example.org"), ("SERVER_PORT", "80")]
    path := "/"
    method := "GET"
    body := "" }

/-- C9: the Connection phase's submission. The first engine call of every
request is `processConnection(REMOTE_ADDR, request.get_port(), SERVER_NAME,
SERVER_PORT)` — and Django's `get_port()` yields the *server* port, never
the client's remote port: on `portDemoRequest` the client-port argument is
80 (= the server port), while the client's remote port is 54321. -/
theorem connection_submits_server_port_as_client_port :
    (∀ (useXForwardedPort : Bool) (oracle : Oracle) (r : HttpRequest),
      (process_request useXForwardedPort oracle r).2.1.head? =
        some (.processConnection r.remoteAddr (get_port useXForwardedPort r)
          r.serverName r.serverPort))
    ∧ (∀ r : HttpRequest, get_port false r = r.serverPort)
    ∧ get_port false portDemoRequest = 80
    ∧ portDemoRequest.remotePort = 54321 := by
  refine ⟨?_, fun r => rfl, rfl, rfl⟩
  intro u oracle r
  unfold process_request
  repeat' split
  all_goals simp [connectionEvents]

/-! ## Claim theorems: the intervention translator -/

/-- C2: for every verdict the engine's intervention query returns, a
non-disruptive one produces no replacement response; a disruptive one with
a non-null url produces a redirect to it (redirect wins over the status
code); a disruptive one with a null url produces a fixed-status response
(which carries no body); and a non-null log field is emitted through the
log sink whatever the disruptive flag is. -/
theorem process_intervention_translation (i : ModSecurityIntervention) :
    (i.disruptive = false → (process_intervention (some i)).1 = none)
    ∧ (∀ u : String, i.disruptive = true → i.url = some u →
        (process_intervention (some i)).1 = some (.redirect u))
    ∧ (i.disruptive = true → i.url = none →
        (process_intervention (some i)).1 = some (.fixedStatus i.status))
    ∧ (∀ l : String, i.log = some l → (process_intervention (some i)).2 = [l]) := by
  obtain ⟨st, url, log, disr⟩ := i
  refine ⟨?_, ?_, ?_, ?_⟩
  · rintro rfl
    simp [process_intervention]
  · rintro u rfl rfl
    simp [process_intervention]
  · rintro rfl rfl
    simp [process_intervention]
  · rintro l rfl
    cases disr <;> rcases url with _ | u <;> simp [process_intervention]

/-- Witness for C2: a disruptive url-less 403 verdict with a log line is
translated to the fixed-status 403 response and its log is emitted; a
disruptive verdict with a url becomes a redirect; a non-disruptive one
produces nothing. -/
theorem process_intervention_translation_witness :
    (process_intervention (some ⟨403, none, some "blocked", true⟩)).1 =
      some (FinalResponse.fixedStatus 403)
    ∧ (process_intervention (some ⟨403, none, some "blocked", true⟩)).2 = ["blocked"]
    ∧ (process_intervention (some ⟨302, some "https://x", none, true⟩)).1 =
      some (FinalResponse.redirect "https://x")
    ∧ (process_intervention (some ⟨200, none, some "note", false⟩)).1 = none :=
  ⟨(process_intervention_translation ⟨403, none, some "blocked", true⟩).2.2.1 rfl rfl,
   (process_intervention_translation ⟨403, none, some "blocked", true⟩).2.2.2 "blocked" rfl,
   (process_intervention_translation ⟨302, some "https://x", none, true⟩).2.1
     "https://x" rfl rfl,
   (process_intervention_translation ⟨200, none, some "note", false⟩).1 rfl⟩

/-! ## Claim theorems: the inspection pipeline -/

/-- A sample request used by the pipeline witnesses. -/
def wRequest : HttpRequest :=
  { remoteAddr := "203.0.113.9"
    remotePort := 40000
    serverName := "www.example.com"
    serverPort := 8080
    xForwardedPort := none
    meta := [("REMOTE_ADDR", "203.0.113.9"), ("SERVER_NAME", "www.example.com"),
             ("SERVER_PORT", "8080"), ("HTTP_HOST", "www.example.com"),
             ("HTTP_USER_AGENT", "curl/8")]
    path := "/index"
    method := "GET"
    body := "q=1" }

/-- A sample wrapped-handler response used by the pipeline witnesses. -/
def wResponse : HandlerResponse :=
  { headers := [("Content-Type", "text/html")], status_code := 200, body := "<html>" }

/-- A wrapped handler that always produces `wResponse`. -/
def wHandler : HttpRequest → HandlerResponse := fun _ => wResponse

/-- An engine that reports a disruptive redirect verdict at the URI phase
and nothing elsewhere. -/
def wBlockUriOracle : Oracle := fun p =>
  if p = Phase.uri then some ⟨302, some "https://blocked.example", none, true⟩ else none

/-- An engine that never reports a pending intervention. -/
def wCleanOracle : Oracle := fun _ => none

/-- C4: when the intervention check after each of the six phases yields no
disruptive verdict, the middleware returns the wrapped handler's original
response object unchanged. -/
theorem no_intervention_passthrough (useXForwardedPort : Bool) (oracle : Oracle)
    (get_response : HttpRequest → HandlerResponse) (request : HttpRequest)
    (hclean : ∀ q : Phase, (process_intervention (oracle q)).1 = none) :
    (call useXForwardedPort oracle get_response request).1 =
      FinalResponse.original (get_response request) := by
  have h0 := hclean .connection
  have h1 := hclean .uri
  have h2 := hclean .requestHeaders
  have h3 := hclean .requestBody
  have h4 := hclean .responseHeaders
  have h5 := hclean .responseBody
  rcases e0 : process_intervention (oracle .connection) with ⟨o0, l0⟩
  rcases e1 : process_intervention (oracle .uri) with ⟨o1, l1⟩
  rcases e2 : process_intervention (oracle .requestHeaders) with ⟨o2, l2⟩
  rcases e3 : process_intervention (oracle .requestBody) with ⟨o3, l3⟩
  rcases e4 : process_intervention (oracle .responseHeaders) with ⟨o4, l4⟩
  rcases e5 : process_intervention (oracle .responseBody) with ⟨o5, l5⟩
  rw [e0] at h0; rw [e1] at h1; rw [e2] at h2
  rw [e3] at h3; rw [e4] at h4; rw [e5] at h5
  simp only at h0 h1 h2 h3 h4 h5
  subst h0 h1 h2 h3 h4 h5
  simp [call, process_request, process_response, e0, e1, e2, e3, e4, e5]

/-- Witness for C4: with an engine that never intervenes, the sample
request gets the sample handler response back unchanged. -/
theorem no_intervention_passthrough_witness :
    (call false wCleanOracle wHandler wRequest).1 = FinalResponse.original wResponse :=
  no_intervention_passthrough false wCleanOracle wHandler wRequest (fun _ => rfl)

/-- C1: when the intervention check after a phase is the first to yield a
disruptive verdict, the pipeline stops there: the translated verdict
response is the final response of the whole request, every engine call in
the trace belongs to that phase or an earlier one, and if the phase is
request-side the wrapped handler is never invoked. -/
theorem intervention_short_circuits_pipeline (useXForwardedPort : Bool)
    (oracle : Oracle) (get_response : HttpRequest → HandlerResponse)
    (request : HttpRequest) (p : Phase) (resp : FinalResponse)
    (hbefore : ∀ q : Phase, q.idx < p.idx → (process_intervention (oracle q)).1 = none)
    (hp : (process_intervention (oracle p)).1 = some resp) :
    (call useXForwardedPort oracle get_response request).1 = resp
    ∧ (∀ e ∈ (call useXForwardedPort oracle get_response request).2.1,
        ∀ q : Phase, eventPhase e = some q → q.idx ≤ p.idx)
    ∧ (p.isRequestSide = true →
        Event.handlerCall ∉ (call useXForwardedPort oracle get_response request).2.1) := by
  cases p with
  | connection =>
    rcases e0 : process_intervention (oracle .connection) with ⟨o0, l0⟩
    rw [e0] at hp
    simp only at hp
    subst hp
    have hcall : (call useXForwardedPort oracle get_response request).1 = resp
        ∧ (call useXForwardedPort oracle get_response request).2.1 =
          connectionEvents useXForwardedPort request := by
      simp [call, process_request, e0]
    refine ⟨hcall.1, ?_, ?_⟩
    · intro e he q hq
      rw [hcall.2] at he
      exact idx_le_of_eventPhase (eventPhase_connectionEvents he) hq (by decide)
    · intro _
      rw [hcall.2]
      exact handlerCall_not_mem_connectionEvents
  | uri =>
    have h0 := hbefore .connection (by decide)
    rcases e0 : process_intervention (oracle .connection) with ⟨o0, l0⟩
    rcases e1 : process_intervention (oracle .uri) with ⟨o1, l1⟩
    rw [e0] at h0
    rw [e1] at hp
    simp only at h0 hp
    subst h0
    subst hp
    have hcall : (call useXForwardedPort oracle get_response request).1 = resp
        ∧ (call useXForwardedPort oracle get_response request).2.1 =
          connectionEvents useXForwardedPort request ++ uriEvents request := by
      simp [call, process_request, e0, e1]
    refine ⟨hcall.1, ?_, ?_⟩
    · intro e he q hq
      rw [hcall.2] at he
      rcases List.mem_append.mp he with he | he
      · exact idx_le_of_eventPhase (eventPhase_connectionEvents he) hq (by decide)
      · exact idx_le_of_eventPhase (eventPhase_uriEvents he) hq (by decide)
    · intro _
      rw [hcall.2]
      simp [List.mem_append, handlerCall_not_mem_connectionEvents,
        handlerCall_not_mem_uriEvents]
  | requestHeaders =>
    have h0 := hbefore .connection (by decide)
    have h1 := hbefore .uri (by decide)
    rcases e0 : process_intervention (oracle .connection) with ⟨o0, l0⟩
    rcases e1 : process_intervention (oracle .uri) with ⟨o1, l1⟩
    rcases e2 : process_intervention (oracle .requestHeaders) with ⟨o2, l2⟩
    rw [e0] at h0
    rw [e1] at h1
    rw [e2] at hp
    simp only at h0 h1 hp
    subst h0
    subst h1
    subst hp
    have hcall : (call useXForwardedPort oracle get_response request).1 = resp
        ∧ (call useXForwardedPort oracle get_response request).2.1 =
          connectionEvents useXForwardedPort request ++ uriEvents request ++
            requestHeaderEvents request := by
      simp [call, process_request, e0, e1, e2]
    refine ⟨hcall.1, ?_, ?_⟩
    · intro e he q hq
      rw [hcall.2] at he
      simp only [List.mem_append] at he
      rcases he with (he | he) | he
      · exact idx_le_of_eventPhase (eventPhase_connectionEvents he) hq (by decide)
      · exact idx_le_of_eventPhase (eventPhase_uriEvents he) hq (by decide)
      · exact idx_le_of_eventPhase (eventPhase_requestHeaderEvents he) hq (by decide)
    · intro _
      rw [hcall.2]
      simp [List.mem_append, handlerCall_not_mem_connectionEvents,
        handlerCall_not_mem_uriEvents, handlerCall_not_mem_requestHeaderEvents]
  | requestBody =>
    have h0 := hbefore .connection (by decide)
    have h1 := hbefore .uri (by decide)
    have h2 := hbefore .requestHeaders (by decide)
    rcases e0 : process_intervention (oracle .connection) with ⟨o0, l0⟩
    rcases e1 : process_intervention (oracle .uri) with ⟨o1, l1⟩
    rcases e2 : process_intervention (oracle .requestHeaders) with ⟨o2, l2⟩
    rcases e3 : process_intervention (oracle .requestBody) with ⟨o3, l3⟩
    rw [e0] at h0
    rw [e1] at h1
    rw [e2] at h2
    rw [e3] at hp
    simp only at h0 h1 h2 hp
    subst h0
    subst h1
    subst h2
    subst hp
    have hcall : (call useXForwardedPort oracle get_response request).1 = resp
        ∧ (call useXForwardedPort oracle get_response request).2.1 =
          connectionEvents useXForwardedPort request ++ uriEvents request ++
            requestHeaderEvents request ++ requestBodyEvents request := by
      simp [call, process_request, e0, e1, e2, e3]
    refine ⟨hcall.1, ?_, ?_⟩
    · intro e he q hq
      rw [hcall.2] at he
      simp only [List.mem_append] at he
      rcases he with ((he | he) | he) | he
      · exact idx_le_of_eventPhase (eventPhase_connectionEvents he) hq (by decide)
      · exact idx_le_of_eventPhase (eventPhase_uriEvents he) hq (by decide)
      · exact idx_le_of_eventPhase (eventPhase_requestHeaderEvents he) hq (by decide)
      · exact idx_le_of_eventPhase (eventPhase_requestBodyEvents he) hq (by decide)
    · intro _
      rw [hcall.2]
      simp [List.mem_append, handlerCall_not_mem_connectionEvents,
        handlerCall_not_mem_uriEvents, handlerCall_not_mem_requestHeaderEvents,
        handlerCall_not_mem_requestBodyEvents]
  | responseHeaders =>
    have h0 := hbefore .connection (by decide)
    have h1 := hbefore .uri (by decide)
    have h2 := hbefore .requestHeaders (by decide)
    have h3 := hbefore .requestBody (by decide)
    rcases e0 : process_intervention (oracle .connection) with ⟨o0, l0⟩
    rcases e1 : process_intervention (oracle .uri) with ⟨o1, l1⟩
    rcases e2 : process_intervention (oracle .requestHeaders) with ⟨o2, l2⟩
    rcases e3 : process_intervention (oracle .requestBody) with ⟨o3, l3⟩
    rcases e4 : process_intervention (oracle .responseHeaders) with ⟨o4, l4⟩
    rw [e0] at h0
    rw [e1] at h1
    rw [e2] at h2
    rw [e3] at h3
    rw [e4] at hp
    simp only at h0 h1 h2 h3 hp
    subst h0
    subst h1
    subst h2
    subst h3
    subst hp
    have hcall : (call useXForwardedPort oracle get_response request).1 = resp
        ∧ (call useXForwardedPort oracle get_response request).2.1 =
          connectionEvents useXForwardedPort request ++ uriEvents request ++
            requestHeaderEvents request ++ requestBodyEvents request ++
            [Event.handlerCall] ++ responseHeaderEvents (get_response request) := by
      simp [call, process_request, process_response, e0, e1, e2, e3, e4]
    refine ⟨hcall.1, ?_, ?_⟩
    · intro e he q hq
      rw [hcall.2] at he
      simp only [List.mem_append] at he
      rcases he with ((((he | he) | he) | he) | he) | he
      · exact idx_le_of_eventPhase (eventPhase_connectionEvents he) hq (by decide)
      · exact idx_le_of_eventPhase (eventPhase_uriEvents he) hq (by decide)
      · exact idx_le_of_eventPhase (eventPhase_requestHeaderEvents he) hq (by decide)
      · exact idx_le_of_eventPhase (eventPhase_requestBodyEvents he) hq (by decide)
      · simp only [List.mem_singleton] at he
        subst he
        simp [eventPhase] at hq
      · exact idx_le_of_eventPhase (eventPhase_responseHeaderEvents he) hq (by decide)
    · intro hreq
      exact absurd hreq (by decide)
  | responseBody =>
    have h0 := hbefore .connection (by decide)
    have h1 := hbefore .uri (by decide)
    have h2 := hbefore .requestHeaders (by decide)
    have h3 := hbefore .requestBody (by decide)
    have h4 := hbefore .responseHeaders (by decide)
    rcases e0 : process_intervention (oracle .connection) with ⟨o0, l0⟩
    rcases e1 : process_intervention (oracle .uri) with ⟨o1, l1⟩
    rcases e2 : process_intervention (oracle .requestHeaders) with ⟨o2, l2⟩
    rcases e3 : process_intervention (oracle .requestBody) with ⟨o3, l3⟩
    rcases e4 : process_intervention (oracle .responseHeaders) with ⟨o4, l4⟩
    rcases e5 : process_intervention (oracle .responseBody) with ⟨o5, l5⟩
    rw [e0] at h0
    rw [e1] at h1
    rw [e2] at h2
    rw [e3] at h3
    rw [e4] at h4
    rw [e5] at hp
    simp only at h0 h1 h2 h3 h4 hp
    subst h0
    subst h1
    subst h2
    subst h3
    subst h4
    subst hp
    have hcall : (call useXForwardedPort oracle get_response request).1 = resp
        ∧ (call useXForwardedPort oracle get_response request).2.1 =
          connectionEvents useXForwardedPort request ++ uriEvents request ++
            requestHeaderEvents request ++ requestBodyEvents request ++
            [Event.handlerCall] ++ responseHeaderEvents (get_response request) ++
            responseBodyEvents (get_response request) := by
      simp [call, process_request, process_response, e0, e1, e2, e3, e4, e5]
    refine ⟨hcall.1, ?_, ?_⟩
    · intro e he q hq
      rw [hcall.2] at he
      simp only [List.mem_append] at he
      rcases he with (((((he | he) | he) | he) | he) | he) | he
      · exact idx_le_of_eventPhase (eventPhase_connectionEvents he) hq (by decide)
      · exact idx_le_of_eventPhase (eventPhase_uriEvents he) hq (by decide)
      · exact idx_le_of_eventPhase (eventPhase_requestHeaderEvents he) hq (by decide)
      · exact idx_le_of_eventPhase (eventPhase_requestBodyEvents he) hq (by decide)
      · simp only [List.mem_singleton] at he
        subst he
        simp [eventPhase] at hq
      · exact idx_le_of_eventPhase (eventPhase_responseHeaderEvents he) hq (by decide)
      · exact idx_le_of_eventPhase (eventPhase_responseBodyEvents he) hq (by decide)
    · intro hreq
      exact absurd hreq (by decide)

/-- Witness for C1: an engine that blocks at the URI phase with a redirect
makes the sample request end in that redirect, with the wrapped handler
never invoked. -/
theorem intervention_short_circuits_pipeline_witness :
    (call false wBlockUriOracle wHandler wRequest).1 =
      FinalResponse.redirect "https://blocked.example"
    ∧ Event.handlerCall ∉ (call false wBlockUriOracle wHandler wRequest).2.1 :=
  ⟨(intervention_short_circuits_pipeline false wBlockUriOracle wHandler wRequest
      .uri (FinalResponse.redirect "https://blocked.example")
      (by decide) rfl).1,
   (intervention_short_circuits_pipeline false wBlockUriOracle wHandler wRequest
      .uri (FinalResponse.redirect "https://blocked.example")
      (by decide) rfl).2.2 (by decide)⟩

/-- C3: when no phase's check yields a disruptive verdict, the trace of a
request is exactly the six phases' engine calls in pipeline order with the
wrapped handler invoked once, between the request and response
sub-pipelines; and in general the wrapped handler is invoked exactly once
when the request sub-pipeline completes without a disruptive intervention
and never otherwise. -/
theorem phase_order_and_handler_once (useXForwardedPort : Bool) (oracle : Oracle)
    (get_response : HttpRequest → HandlerResponse) (request : HttpRequest) :
    ((∀ q : Phase, (process_intervention (oracle q)).1 = none) →
      (call useXForwardedPort oracle get_response request).2.1 =
        fullTrace useXForwardedPort request (get_response request))
    ∧ (call useXForwardedPort oracle get_response request).2.1.count Event.handlerCall =
        (if requestClean oracle then 1 else 0) := by
  constructor
  · intro hclean
    have h0 := hclean .connection
    have h1 := hclean .uri
    have h2 := hclean .requestHeaders
    have h3 := hclean .requestBody
    have h4 := hclean .responseHeaders
    have h5 := hclean .responseBody
    rcases e0 : process_intervention (oracle .connection) with ⟨o0, l0⟩
    rcases e1 : process_intervention (oracle .uri) with ⟨o1, l1⟩
    rcases e2 : process_intervention (oracle .requestHeaders) with ⟨o2, l2⟩
    rcases e3 : process_intervention (oracle .requestBody) with ⟨o3, l3⟩
    rcases e4 : process_intervention (oracle .responseHeaders) with ⟨o4, l4⟩
    rcases e5 : process_intervention (oracle .responseBody) with ⟨o5, l5⟩
    rw [e0] at h0; rw [e1] at h1; rw [e2] at h2
    rw [e3] at h3; rw [e4] at h4; rw [e5] at h5
    simp only at h0 h1 h2 h3 h4 h5
    subst h0 h1 h2 h3 h4 h5
    simp [call, process_request, process_response, fullTrace, e0, e1, e2, e3, e4, e5]
  · rcases e0 : process_intervention (oracle .connection) with ⟨_ | r0, l0⟩
    · rcases e1 : process_intervention (oracle .uri) with ⟨_ | r1, l1⟩
      · rcases e2 : process_intervention (oracle .requestHeaders) with ⟨_ | r2, l2⟩
        · rcases e3 : process_intervention (oracle .requestBody) with ⟨_ | r3, l3⟩
          · rcases e4 : process_intervention (oracle .responseHeaders) with ⟨_ | r4, l4⟩
            · rcases e5 : process_intervention (oracle .responseBody) with ⟨_ | r5, l5⟩
              · simp [call, process_request, process_response, e0, e1, e2, e3, e4, e5,
                  requestClean, requestPhases, List.count_append,
                  count_handlerCall_connectionEvents, count_handlerCall_uriEvents,
                  count_handlerCall_requestHeaderEvents,
                  count_handlerCall_requestBodyEvents,
                  count_handlerCall_responseHeaderEvents,
                  count_handlerCall_responseBodyEvents]
              · simp [call, process_request, process_response, e0, e1, e2, e3, e4, e5,
                  requestClean, requestPhases, List.count_append,
                  count_handlerCall_connectionEvents, count_handlerCall_uriEvents,
                  count_handlerCall_requestHeaderEvents,
                  count_handlerCall_requestBodyEvents,
                  count_handlerCall_responseHeaderEvents,
                  count_handlerCall_responseBodyEvents]
            · simp [call, process_request, process_response, e0, e1, e2, e3, e4,
                requestClean, requestPhases, List.count_append,
                count_handlerCall_connectionEvents, count_handlerCall_uriEvents,
                count_handlerCall_requestHeaderEvents,
                count_handlerCall_requestBodyEvents,
                count_handlerCall_responseHeaderEvents]
          · simp [call, process_request, e0, e1, e2, e3,
              requestClean, requestPhases, List.count_append,
              count_handlerCall_connectionEvents, count_handlerCall_uriEvents,
              count_handlerCall_requestHeaderEvents,
              count_handlerCall_requestBodyEvents]
        · simp [call, process_request, e0, e1, e2,
            requestClean, requestPhases, List.count_append,
            count_handlerCall_connectionEvents, count_handlerCall_uriEvents,
            count_handlerCall_requestHeaderEvents]
      · simp [call, process_request, e0, e1,
          requestClean, requestPhases, List.count_append,
          count_handlerCall_connectionEvents, count_handlerCall_uriEvents]
    · simp [call, process_request, e0,
        requestClean, requestPhases, List.count_append,
        count_handlerCall_connectionEvents]

/-- Witness for C3: under the never-intervening engine the sample request's
trace is exactly the full ordered trace; under the URI-blocking engine the
wrapped handler is invoked zero times. -/
theorem phase_order_and_handler_once_witness :
    (call false wCleanOracle wHandler wRequest).2.1 = fullTrace false wRequest wResponse
    ∧ (call false wBlockUriOracle wHandler wRequest).2.1.count Event.handlerCall = 0 :=
  ⟨(phase_order_and_handler_once false wCleanOracle wHandler wRequest).1 (fun _ => rfl),
   ((phase_order_and_handler_once false wBlockUriOracle wHandler wRequest).2).trans
     (by decide)⟩

/-- Witness for C10 at concrete settings: a string file setting and a
two-line list rules setting. -/
theorem init_normalization_and_order_witness :
    normalize_rule_files (RulesSetting.str "rules/*.conf") = some ["rules/*.conf"]
    ∧ normalize_rule_lines (RulesSetting.list ["SecRule A", "SecRule B"]) =
        some "SecRule A\nSecRule B" :=
  ⟨init_normalization_and_order.1 "rules/*.conf",
   (init_normalization_and_order.2.1 ["SecRule A", "SecRule B"]).trans (by decide)⟩

end PyModSec
